import Mathlib

set_option maxRecDepth 4000

/-
  Verification development for the leia voice-dictation pipeline.

  The model below is a shallow embedding of the Python sources:
  - `src/speech_handlers/helpers/grammar.py`  (is_indefinite_article)
  - `src/speech_handlers/dictation.py`        (DictationSpeechHandler.handle_speech)
  - `src/speech_handlers/default.py`          (DefaultSpeechHandler.handle_speech / handle_chain)
  - `src/leia.py`                             (SpeechController.handle_speech / pause / resume / stop)

  Python string primitives (str.lower, str.split, str.strip, str.capitalize,
  slicing, substring membership) are modelled by executable functions on the
  character list of a Lean `String`.  Side-effecting collaborator calls
  (pyautogui.typewrite / hotkey / press, launching or closing applications,
  recognizer.set_paused) are modelled as an explicit list of `Effect`s
  produced by each step; the `try/except` block in the dictation handler is
  modelled by explicit case analysis on the places where an IndexError can
  occur (indexing `[-1]` into an empty string).
-/

namespace Leia

/-- Python `str.split()` worker: splits on whitespace runs, drops empty words.
`cur` holds the current in-progress word, reversed. -/
def wordsAux : List Char → List Char → List String
  | [], cur => if cur = [] then [] else [String.mk cur.reverse]
  | c :: cs, cur =>
    if c.isWhitespace then
      if cur = [] then wordsAux cs [] else String.mk cur.reverse :: wordsAux cs []
    else wordsAux cs (c :: cur)

/-- Python `text.split()` (no separator argument). -/
def pySplit (s : String) : List String := wordsAux s.data []

/-- Python `str.lower()` (ASCII case mapping suffices for the wake words and
commands in the source). -/
def pyLower (s : String) : String := String.mk (s.data.map Char.toLower)

/-- Drop leading whitespace characters. -/
def dropWS : List Char → List Char
  | [] => []
  | c :: cs => if c.isWhitespace then dropWS cs else c :: cs

/-- Python `str.strip()` on a character list: drop whitespace at both ends. -/
def stripChars (l : List Char) : List Char := (dropWS ((dropWS l).reverse)).reverse

/-- Python `str.strip()`. -/
def pyStrip (s : String) : String := String.mk (stripChars s.data)

/-- Python `str.capitalize()`: first character upper-cased, rest lower-cased. -/
def pyCapitalize (s : String) : String :=
  match s.data with
  | [] => ""
  | c :: cs => String.mk (c.toUpper :: cs.map Char.toLower)

/-- Python `' '.join(words)`. -/
def joinSpace : List String → String
  | [] => ""
  | [w] => w
  | w :: ws => w ++ " " ++ joinSpace ws

/-- Does `pat` match the front of `s`? (worker for substring membership). -/
def leadMatch : List Char → List Char → Bool
  | [], _ => true
  | _ :: _, [] => false
  | p :: ps, c :: cs => p == c && leadMatch ps cs

/-- Does `pat` occur contiguously in `s`? (worker). -/
def occursInChars : List Char → List Char → Bool
  | pat, [] => leadMatch pat []
  | pat, c :: cs => leadMatch pat (c :: cs) || occursInChars pat cs

/-- Python `pat in s` substring membership. -/
def occursIn (pat s : String) : Bool := occursInChars pat.data s.data

/-- Python slicing `s[n:]` (by code point, all sources are ASCII). -/
def pyDrop (s : String) (n : Nat) : String := String.mk (s.data.drop n)

/-- Python dict lookup (`d[k]` after `k in d`); first matching key wins. -/
def cfgLookup : List (String × String) → String → Option String
  | [], _ => none
  | (a, b) :: rest, k => if a = k then some b else cfgLookup rest k

/-- Python `d.values()` for the special-characters mapping. -/
def cfgValues (cfg : List (String × String)) : List String := cfg.map Prod.snd

/-- `grammar.is_indefinite_article`: word.lower() in {'a', 'an'}. -/
def is_indefinite_article (w : String) : Bool :=
  pyLower w == "a" || pyLower w == "an"

/-- The hardcoded wake-word spellings shared by the handlers
(`["leah", "lea", "leeah", "leia", "laya", "layah", "leja", "lejah"]`). -/
def wakeWords : List String :=
  ["leah", "lea", "leeah", "leia", "laya", "layah", "leja", "lejah"]

/-- Observable collaborator calls issued while handling one utterance. -/
inductive Effect where
  | typewrite (s : String)
  | hotkeyUndo
  | setPaused (b : Bool)
  | launch (app : String)
  | closeApp (app : String)
  | altF4
  | pressEnter
  deriving DecidableEq, Repr

/-- `ListeningState` from `speech_handlers/base.py`. -/
inductive ListeningState where
  | listening
  | paused
  | stopped
  deriving DecidableEq, Repr

/-- `ListeningState` from `leia.py` — the controller's copy has only
LISTENING and PAUSED (stopping is signalled via the `done` event). -/
inductive CtrlState where
  | listening
  | paused
  deriving DecidableEq, Repr

/-- Result of one `DictationSpeechHandler.handle_speech` call: the returned
string, the updated `last_text`, and the collaborator calls made. -/
structure DictResult where
  ret : String
  last : String
  effects : List Effect
  deriving DecidableEq, Repr

/-- The undo-command guard in `dictation.py`:
`len(words) == 2 and words[0].lower() in wakeWords and words[1].lower() == "undo"`. -/
def isUndoCmd (text : String) : Bool :=
  (pySplit (pyLower text)).length == 2 &&
  wakeWords.contains ((pySplit (pyLower text)).getD 0 "") &&
  ((pySplit (pyLower text)).getD 1 "") == "undo"

/-- The "put" guard in `dictation.py`:
`len(words) >= 3 and words[0].lower() in wakeWords and words[1].lower() in ["put","puts","putz"]`. -/
def isPutCmd (text : String) : Bool :=
  decide (3 ≤ (pySplit (pyLower text)).length) &&
  wakeWords.contains ((pySplit (pyLower text)).getD 0 "") &&
  ["put", "puts", "putz"].contains ((pySplit (pyLower text)).getD 1 "")

/-- The word list used for the phrase lookup: the article (if any) is stripped
together with the two tokens before it; otherwise the word list is left
untouched (`words = words[3:]` only happens under `is_indefinite_article`). -/
def putWords (text : String) : List String :=
  if is_indefinite_article ((pySplit (pyLower text)).getD 2 "") then
    (pySplit (pyLower text)).drop 3
  else
    pySplit (pyLower text)

/-- The punctuation-substitution stage of `dictation.py` (lines 72-80):
on a "put" command the joined remaining words are looked up in the
special-characters mapping, giving the mapped literal or `""`;
any other text passes through unchanged. -/
def putProcess (cfg : List (String × String)) (text : String) : String :=
  if isPutCmd text then
    match cfgLookup cfg (pyStrip (joinSpace (putWords text))) with
    | some v => v
    | none => ""
  else text

/-- The second continuity rule of `dictation.py` (line 88-89), shared by both
branches of the first rule:
`if last_text[-1].isalnum() and text.strip()[-1] not in [',',':',';'] and
text.strip()[-1] not in special_chars.values(): text = " " + text`.
An IndexError from `text.strip()[-1]` lands in the `except` branch, which
capitalizes the current text. -/
def contSpace (vals : List String) (last t1 : String) : String :=
  match last.data.getLast? with
  | none => t1
  | some rl =>
    if rl.isAlphanum then
      match (pyStrip t1).data.getLast? with
      | none => pyCapitalize t1
      | some tc =>
        if tc = ',' ∨ tc = ':' ∨ tc = ';' then t1
        else if vals.contains (String.mk [tc]) then t1
        else " " ++ t1
    else t1

/-- The continuity block of `dictation.py` (lines 84-91), including the
`try/except` around both rules.  `last = ""` skips the block; an IndexError
from `last_text.strip()[-1]` (all-whitespace `last`) hits the `except`
branch with the unmodified text. -/
def dictContinuity (vals : List String) (last t : String) : String :=
  if last = "" then t
  else
    match (pyStrip last).data.getLast? with
    | none => pyCapitalize t
    | some lc =>
      if lc = '.' ∨ lc = '!' ∨ lc = '?' then
        contSpace vals last (" " ++ pyCapitalize t)
      else
        contSpace vals last t

/-- `DictationSpeechHandler.handle_speech` (state `last_text` passed
explicitly; `cfg` is the loaded special-characters mapping). -/
def dictation_handle_speech (cfg : List (String × String)) (last text : String) : DictResult :=
  if isUndoCmd text then
    ⟨"", last, [Effect.hotkeyUndo]⟩
  else
    ⟨dictContinuity (cfgValues cfg) last (putProcess cfg text),
     dictContinuity (cfgValues cfg) last (putProcess cfg text),
     [Effect.typewrite (dictContinuity (cfgValues cfg) last (putProcess cfg text))]⟩

/-- Result of one `DefaultSpeechHandler` call: returned string, the updated
dispatcher `ListeningState`, the updated dictation `last_text`, whether the
dictation handler in the chain was invoked, and the collaborator calls. -/
structure DispResult where
  ret : String
  ls : ListeningState
  last : String
  dictCalled : Bool
  effects : List Effect
  deriving DecidableEq, Repr

/-- The command recognized by the substring checks of
`DefaultSpeechHandler.handle_chain` (one constructor per `elif` arm;
`launchNoApp` is the arm where `"leah launch "` occurs but the slice
`text_lower[12:].strip()` is empty, which falls through to `return text`). -/
inductive ChainCmd where
  | stop
  | pause
  | resume
  | launch (app : String)
  | launchNoApp
  deriving DecidableEq, Repr

/-- The `if "leah stop" in text_lower / elif ...` chain of
`DefaultSpeechHandler.handle_chain` (lines 271-284), compiled to a
classifier: `none` means the final `else` arm (possible delegation). -/
def chainCommandOf (text : String) : Option ChainCmd :=
  if occursIn "leah stop" (pyLower text) then
    some ChainCmd.stop
  else if occursIn "leah pause" (pyLower text) then
    some ChainCmd.pause
  else if occursIn "leah resume" (pyLower text) then
    some ChainCmd.resume
  else if occursIn "leah launch " (pyLower text) then
    if pyStrip (pyDrop (pyLower text) 12) ≠ "" then
      some (ChainCmd.launch (pyStrip (pyDrop (pyLower text) 12)))
    else
      some ChainCmd.launchNoApp
  else
    none

/-- `DefaultSpeechHandler.handle_chain` (lines 252-294): substring-based
command checks on the lowered text, then delegation to the first handler in
the chain only when the state is LISTENING.  `hasChain` models
`len(self._handler_chain) > 0`; the single chained handler is the dictation
handler.  Every command arm returns the original `text` without delegating;
the launch arm issues the launch call on the (lowered) tail slice. -/
def handle_chain (cfg : List (String × String)) (ls : ListeningState) (last : String)
    (hasChain : Bool) (text : String) : DispResult :=
  match chainCommandOf text with
  | some ChainCmd.stop => ⟨text, ListeningState.stopped, last, false, []⟩
  | some ChainCmd.pause => ⟨text, ListeningState.paused, last, false, []⟩
  | some ChainCmd.resume => ⟨text, ListeningState.listening, last, false, []⟩
  | some (ChainCmd.launch app) => ⟨text, ls, last, false, [Effect.launch app]⟩
  | some ChainCmd.launchNoApp => ⟨text, ls, last, false, []⟩
  | none =>
    if ls = ListeningState.listening ∧ hasChain = true then
      ⟨(dictation_handle_speech cfg last text).ret, ls,
       (dictation_handle_speech cfg last text).last, true,
       (dictation_handle_speech cfg last text).effects⟩
    else
      ⟨text, ls, last, false, []⟩

/-- The command recognized by the tokenized wake-word checks of
`DefaultSpeechHandler.handle_speech` (one constructor per `elif` arm). -/
inductive WakeCmd where
  | stop
  | pause
  | resume
  | launch (app : String)
  | closeApp (app : String)
  | closeActive
  | pressReturn
  deriving DecidableEq, Repr

/-- The wake-word command recognition of `DefaultSpeechHandler.handle_speech`
(lines 206-247), compiled to a classifier: the guard
`len(words) >= 2 and words[0] in wakeWords` followed by the `elif` chain on
`words[1]`; `none` means fall-through to `handle_chain`. -/
def wakeCommandOf (text : String) : Option WakeCmd :=
  if 2 ≤ (pySplit (pyLower text)).length ∧
     wakeWords.contains ((pySplit (pyLower text)).getD 0 "") = true then
    if (pySplit (pyLower text)).getD 1 "" = "stop" then
      some WakeCmd.stop
    else if (pySplit (pyLower text)).getD 1 "" = "pause" then
      some WakeCmd.pause
    else if (pySplit (pyLower text)).getD 1 "" = "resume" then
      some WakeCmd.resume
    else if (pySplit (pyLower text)).getD 1 "" = "launch" ∧ 2 < (pySplit (pyLower text)).length then
      some (WakeCmd.launch (joinSpace ((pySplit (pyLower text)).drop 2)))
    else if (pySplit (pyLower text)).getD 1 "" = "close" then
      if 2 < (pySplit (pyLower text)).length then
        some (WakeCmd.closeApp (joinSpace ((pySplit (pyLower text)).drop 2)))
      else
        some WakeCmd.closeActive
    else if (pySplit (pyLower text)).getD 1 "" = "press" ∧ 2 < (pySplit (pyLower text)).length ∧
            (pySplit (pyLower text)).getD 2 "" = "return" then
      some WakeCmd.pressReturn
    else
      none
  else
    none

/-- `DefaultSpeechHandler.handle_speech` (lines 196-250): tokenized wake-word
command recognition (state transitions are unconditional assignments), falling
through to `handle_chain` when no command arm fires. -/
def default_handle_speech (cfg : List (String × String)) (ls : ListeningState) (last : String)
    (hasChain : Bool) (text : String) : DispResult :=
  match wakeCommandOf text with
  | some WakeCmd.stop => ⟨"", ListeningState.stopped, last, false, []⟩
  | some WakeCmd.pause => ⟨"", ListeningState.paused, last, false, []⟩
  | some WakeCmd.resume => ⟨"", ListeningState.listening, last, false, []⟩
  | some (WakeCmd.launch app) => ⟨"", ls, last, false, [Effect.launch app]⟩
  | some (WakeCmd.closeApp app) => ⟨"", ls, last, false, [Effect.closeApp app]⟩
  | some WakeCmd.closeActive => ⟨"", ls, last, false, [Effect.altF4]⟩
  | some WakeCmd.pressReturn => ⟨"", ls, last, false, [Effect.pressEnter]⟩
  | none => handle_chain cfg ls last hasChain text

/-- Full-system state: the controller's state copy and `done` event
(`leia.py`), the dispatcher's state copy, and the dictation `last_text`. -/
structure SysState where
  ctrl : CtrlState
  done : Bool
  disp : ListeningState
  last : String
  deriving DecidableEq, Repr

/-- Result of the controller handling one utterance. -/
structure SysResult where
  st : SysState
  effects : List Effect
  dictCalled : Bool
  deriving DecidableEq, Repr

/-- `SpeechController.pause` (lines 307-316): guarded transition plus
`recognizer.set_paused(True)`. -/
def ctrl_pause (c : CtrlState) : CtrlState × List Effect :=
  if c = CtrlState.listening then (CtrlState.paused, [Effect.setPaused true]) else (c, [])

/-- `SpeechController.resume` (lines 318-322): guarded transition plus
`recognizer.set_paused(False)`. -/
def ctrl_resume (c : CtrlState) : CtrlState × List Effect :=
  if c = CtrlState.paused then (CtrlState.listening, [Effect.setPaused false]) else (c, [])

/-- The tail of `SpeechController.handle_speech`: dispatch to the default
handler only when the controller's state is LISTENING (the chain always
contains the dictation handler in the real system). -/
def dispatchIfListening (cfg : List (String × String)) (st : SysState) (pre : List Effect)
    (text : String) : SysResult :=
  if st.ctrl = CtrlState.listening then
    ⟨⟨st.ctrl, st.done, (default_handle_speech cfg st.disp st.last true text).ls,
      (default_handle_speech cfg st.disp st.last true text).last⟩,
     pre ++ (default_handle_speech cfg st.disp st.last true text).effects,
     (default_handle_speech cfg st.disp st.last true text).dictCalled⟩
  else
    ⟨st, pre, false⟩

/-- `SpeechController.handle_speech` (lines 254-283): exact-match control
commands on `text.lower().strip()`, then dispatch while LISTENING.
`leah stop` sets the `done` event and returns early. -/
def controller_handle_speech (cfg : List (String × String)) (st : SysState)
    (text : String) : SysResult :=
  if pyStrip (pyLower text) = "leah pause" ∧ st.ctrl = CtrlState.listening then
    dispatchIfListening cfg
      ⟨(ctrl_pause st.ctrl).fst, st.done, st.disp, st.last⟩ (ctrl_pause st.ctrl).snd text
  else if pyStrip (pyLower text) = "leah resume" ∧ st.ctrl = CtrlState.paused then
    dispatchIfListening cfg
      ⟨(ctrl_resume st.ctrl).fst, st.done, st.disp, st.last⟩ (ctrl_resume st.ctrl).snd text
  else if pyStrip (pyLower text) = "leah stop" then
    ⟨⟨st.ctrl, true, st.disp, st.last⟩, [], false⟩
  else
    dispatchIfListening cfg st [] text

/-- The text injected into the active window during one step, if any
(`pyautogui.typewrite`). -/
def typedOf : List Effect → Option String
  | [] => none
  | Effect.typewrite s :: _ => some s
  | _ :: es => typedOf es

/-- The emission of one step: the typed text, or `""` when nothing is typed. -/
def emissionOf (es : List Effect) : String := (typedOf es).getD ""

/-- Run the controller over a sequence of utterances, collecting the
per-utterance emissions. -/
def sysRun (cfg : List (String × String)) (st : SysState) : List String → SysState × List String
  | [] => (st, [])
  | t :: ts =>
    ((sysRun cfg (controller_handle_speech cfg st t).st ts).fst,
     emissionOf (controller_handle_speech cfg st t).effects ::
       (sysRun cfg (controller_handle_speech cfg st t).st ts).snd)

/-- Fresh start: everything Listening, `done` clear, empty `last_text`. -/
def startState : SysState := ⟨CtrlState.listening, false, ListeningState.listening, ""⟩

/-- The spec's canonical phrase map: `{"period": "."}`. -/
def cfgPeriod : List (String × String) := [("period", ".")]

/-- Emissions of an utterance sequence from a fresh start. -/
def sysEmissions (cfg : List (String × String)) (ts : List String) : List String :=
  (sysRun cfg startState ts).snd

/-- Did a tokenized wake-word command branch of
`DefaultSpeechHandler.handle_speech` fire for this utterance? -/
def wakeCmdMatched (text : String) : Prop :=
  wakeCommandOf text ≠ none

instance (text : String) : Decidable (wakeCmdMatched text) := by
  unfold wakeCmdMatched
  infer_instance

/-- Did one of the substring command checks of
`DefaultSpeechHandler.handle_chain` fire for this utterance? -/
def chainSubstrMatched (text : String) : Prop :=
  chainCommandOf text ≠ none

instance (text : String) : Decidable (chainSubstrMatched text) := by
  unfold chainSubstrMatched
  infer_instance

/-! Helper lemmas about the Python string primitives. -/

theorem ws_not_alnum (c : Char) (h : c.isWhitespace = true) : c.isAlphanum = false := by
  simp only [Char.isWhitespace, Bool.or_eq_true, decide_eq_true_eq] at h
  rcases h with ((h | h) | h) | h <;> subst h <;> decide

theorem alnum_not_ws (c : Char) (h : c.isAlphanum = true) : c.isWhitespace = false := by
  by_cases hw : c.isWhitespace = true
  · rw [ws_not_alnum c hw] at h
    exact absurd h (by decide)
  · simpa using hw

theorem dropWS_getLast? :
    ∀ (l : List Char) (x : Char), l.getLast? = some x → x.isWhitespace = false →
      (dropWS l).getLast? = some x
  | [], x, h, _ => by simp at h
  | c :: cs, x, h, hx => by
    unfold dropWS
    by_cases hc : c.isWhitespace = true
    · rw [if_pos hc]
      cases cs with
      | nil =>
        simp only [List.getLast?_singleton, Option.some.injEq] at h
        subst h
        rw [hc] at hx
        exact absurd hx (by decide)
      | cons b bs =>
        rw [List.getLast?_cons_cons] at h
        exact dropWS_getLast? (b :: bs) x h hx
    · rw [if_neg hc]
      exact h

theorem stripChars_getLast? (l : List Char) (x : Char) (h : l.getLast? = some x)
    (hx : x.isWhitespace = false) : (stripChars l).getLast? = some x := by
  unfold stripChars
  rw [List.getLast?_reverse]
  have h1 : (dropWS l).getLast? = some x := dropWS_getLast? l x h hx
  have h2 : (dropWS l).reverse.head? = some x := by rw [List.head?_reverse]; exact h1
  cases hrev : (dropWS l).reverse with
  | nil => rw [hrev] at h2; simp at h2
  | cons y ys =>
    rw [hrev] at h2
    simp only [List.head?_cons, Option.some.injEq] at h2
    subst h2
    unfold dropWS
    rw [if_neg (by simp [hx])]
    rfl

theorem space_append_ne_empty (s : String) : " " ++ s ≠ "" := by
  intro h
  have := congrArg String.data h
  simp [String.data_append] at this

theorem contSpace_not_alnum (vals : List String) (last t1 : String)
    (h : ∀ rl, last.data.getLast? = some rl → rl.isAlphanum = false) :
    contSpace vals last t1 = t1 := by
  unfold contSpace
  cases hrl : last.data.getLast? with
  | none => rfl
  | some rl =>
    have hra := h rl hrl
    show (if rl.isAlphanum = true then
            match (pyStrip t1).data.getLast? with
            | none => pyCapitalize t1
            | some tc =>
              if tc = ',' ∨ tc = ':' ∨ tc = ';' then t1
              else if vals.contains (String.mk [tc]) = true then t1
              else " " ++ t1
          else t1) = t1
    rw [hra]
    simp

/-- If `last_text` (stripped) ends in a sentence-terminal mark, the dictation
continuity block returns `" " + text.capitalize()` and the second (spacing)
rule does not fire. -/
theorem dictContinuity_terminal (vals : List String) (last t : String) (lc : Char)
    (hne : last ≠ "") (hs : (pyStrip last).data.getLast? = some lc)
    (hterm : lc = '.' ∨ lc = '!' ∨ lc = '?') :
    dictContinuity vals last t = " " ++ pyCapitalize t := by
  have hna : ∀ rl, last.data.getLast? = some rl → rl.isAlphanum = false := by
    intro rl hrl
    by_cases hw : rl.isWhitespace = true
    · exact ws_not_alnum rl hw
    · have hkeep : (stripChars last.data).getLast? = some rl :=
        stripChars_getLast? last.data rl hrl (by simpa using hw)
      have hss : (stripChars last.data).getLast? = some lc := hs
      rw [hkeep] at hss
      have : rl = lc := Option.some.inj hss
      subst this
      rcases hterm with h | h | h <;> subst h <;> decide
  unfold dictContinuity
  rw [if_neg hne, hs]
  show (if lc = '.' ∨ lc = '!' ∨ lc = '?' then contSpace vals last (" " ++ pyCapitalize t)
        else contSpace vals last t) = " " ++ pyCapitalize t
  rw [if_pos hterm]
  exact contSpace_not_alnum vals last (" " ++ pyCapitalize t) hna

/-- If `last_text` ends in an alphanumeric character and the processed text
(stripped) ends in a character that is not a comma/colon/semicolon and not a
mapped punctuation literal, the continuity block prepends exactly one space. -/
theorem dictContinuity_alnum (vals : List String) (last t : String) (lc tc : Char)
    (hrl : last.data.getLast? = some lc) (ha : lc.isAlphanum = true)
    (htc : (pyStrip t).data.getLast? = some tc)
    (h4 : ¬(tc = ',' ∨ tc = ':' ∨ tc = ';'))
    (h5 : vals.contains (String.mk [tc]) = false) :
    dictContinuity vals last t = " " ++ t := by
  have hne : last ≠ "" := by
    intro h
    subst h
    simp at hrl
  have hlcws : lc.isWhitespace = false := alnum_not_ws lc ha
  have hstrip : (pyStrip last).data.getLast? = some lc :=
    stripChars_getLast? last.data lc hrl hlcws
  have hnterm : ¬(lc = '.' ∨ lc = '!' ∨ lc = '?') := by
    rintro (h | h | h) <;> subst h <;> exact absurd ha (by decide)
  unfold dictContinuity
  rw [if_neg hne, hstrip]
  show (if lc = '.' ∨ lc = '!' ∨ lc = '?' then contSpace vals last (" " ++ pyCapitalize t)
        else contSpace vals last t) = " " ++ t
  rw [if_neg hnterm]
  unfold contSpace
  rw [hrl]
  show (if lc.isAlphanum = true then _ else t) = " " ++ t
  rw [if_pos ha, htc]
  show (if tc = ',' ∨ tc = ':' ∨ tc = ';' then t
        else if vals.contains (String.mk [tc]) = true then t else " " ++ t) = " " ++ t
  rw [if_neg h4, if_neg (fun hcon => by rw [h5] at hcon; exact absurd hcon (by decide))]

/-! Helper lemmas about the dispatcher. -/

/-- While the dispatcher's state is not LISTENING, no branch of
`DefaultSpeechHandler.handle_speech`/`handle_chain` invokes the chained
dictation handler, types anything, or touches `last_text`. -/
theorem disp_no_dict (cfg : List (String × String)) (ls : ListeningState) (last : String)
    (hc : Bool) (text : String) (h : ls ≠ ListeningState.listening) :
    (default_handle_speech cfg ls last hc text).dictCalled = false ∧
    typedOf (default_handle_speech cfg ls last hc text).effects = none ∧
    (default_handle_speech cfg ls last hc text).last = last := by
  delta default_handle_speech
  cases hw : wakeCommandOf text with
  | none =>
    delta handle_chain
    cases hcc : chainCommandOf text with
    | none =>
      rw [if_neg (fun hx => h hx.1)]
      exact ⟨rfl, rfl, rfl⟩
    | some c =>
      cases c <;> exact ⟨rfl, rfl, rfl⟩
  | some c =>
    cases c <;> exact ⟨rfl, rfl, rfl⟩

/-- A dispatcher step either leaves `last_text` unchanged, or (the utterance
reached the dictation handler and was not an undo) — when `last_text`
(stripped) ends in a sentence-terminal mark — types `" " + capitalize(...)`. -/
theorem disp_last_or_emit (cfg : List (String × String)) (ls : ListeningState) (last : String)
    (hc : Bool) (text : String) (lc : Char)
    (hne : last ≠ "") (hs : (pyStrip last).data.getLast? = some lc)
    (hterm : lc = '.' ∨ lc = '!' ∨ lc = '?') :
    (default_handle_speech cfg ls last hc text).last = last ∨
    emissionOf (default_handle_speech cfg ls last hc text).effects =
      " " ++ pyCapitalize (putProcess cfg text) := by
  delta default_handle_speech
  cases hw : wakeCommandOf text with
  | some c => cases c <;> exact Or.inl rfl
  | none =>
    delta handle_chain
    cases hcc : chainCommandOf text with
    | some c => cases c <;> exact Or.inl rfl
    | none =>
      by_cases hd : ls = ListeningState.listening ∧ hc = true
      · rw [if_pos hd]
        delta dictation_handle_speech
        by_cases hu : isUndoCmd text = true
        · rw [if_pos hu]
          exact Or.inl rfl
        · rw [if_neg hu]
          refine Or.inr ?_
          show dictContinuity (cfgValues cfg) last (putProcess cfg text) = _
          exact dictContinuity_terminal (cfgValues cfg) last (putProcess cfg text) lc hne hs hterm
      · rw [if_neg hd]
        exact Or.inl rfl

/-- While the dispatcher's state copy is not LISTENING, a full controller
step never invokes the dictation handler and never types anything. -/
theorem sys_no_dict (cfg : List (String × String)) (st : SysState) (text : String)
    (h : st.disp ≠ ListeningState.listening) :
    (controller_handle_speech cfg st text).dictCalled = false ∧
    typedOf (controller_handle_speech cfg st text).effects = none := by
  have hd := disp_no_dict cfg st.disp st.last true text h
  delta controller_handle_speech dispatchIfListening
  split_ifs with h1 h2 h3 h4 h5 h6
  · rw [h1.2]
    exact ⟨hd.1, hd.2.1⟩
  · rw [h1.2]
    exact ⟨rfl, rfl⟩
  · rw [h3.2]
    exact ⟨hd.1, hd.2.1⟩
  · rw [h3.2]
    exact ⟨rfl, rfl⟩
  · exact ⟨rfl, rfl⟩
  · exact ⟨hd.1, hd.2.1⟩
  · exact ⟨rfl, rfl⟩

/-- A full controller step either leaves the dictation `last_text` unchanged,
or — when `last_text` (stripped) ends in a sentence-terminal mark — it types
`" " + capitalize(...)` for the processed utterance. -/
theorem sys_last_or_emit (cfg : List (String × String)) (st : SysState) (text : String)
    (lc : Char) (hne : st.last ≠ "") (hs : (pyStrip st.last).data.getLast? = some lc)
    (hterm : lc = '.' ∨ lc = '!' ∨ lc = '?') :
    (controller_handle_speech cfg st text).st.last = st.last ∨
    emissionOf (controller_handle_speech cfg st text).effects =
      " " ++ pyCapitalize (putProcess cfg text) := by
  have hd := disp_last_or_emit cfg st.disp st.last true text lc hne hs hterm
  delta controller_handle_speech dispatchIfListening
  split_ifs with h1 h2 h3 h4 h5 h6
  · rw [h1.2]
    rcases hd with hl | hr
    · exact Or.inl hl
    · exact Or.inr hr
  · exact Or.inl rfl
  · rw [h3.2]
    rcases hd with hl | hr
    · exact Or.inl hl
    · exact Or.inr hr
  · exact Or.inl rfl
  · exact Or.inl rfl
  · rcases hd with hl | hr
    · exact Or.inl hl
    · exact Or.inr hr
  · exact Or.inl rfl

/-! The claims. -/

/-- C1, counterexample: with the spec's own canonical phrase map
`{"period": "."}`, the sequence `["hello", "leah pause", "world",
"leah resume", "today."]` from a fresh start does not produce the claimed
emissions: the final emission is `"today."` with no leading space (the
space-insertion rule inspects the final character of the new text, `'.'`,
which is a mapped punctuation literal, and therefore suppresses the space). -/
theorem c1_scenario_counterexample :
    sysEmissions cfgPeriod ["hello", "leah pause", "world", "leah resume", "today."] ≠
      ["hello", "", "", "", " today."] := by decide

/-- C1, amended: the scenario yields `"hello"`, `""`, `""` (suppressed),
`""`, and then `"today."` — without a leading space — whenever `"."` is a
mapped punctuation literal (as in the spec's phrase map `{"period": "."}`);
the claimed `" today."` with the leading space is produced only when `"."`
is not among the mapped literals (e.g. with an empty phrase map). -/
theorem c1_scenario_amended :
    sysEmissions cfgPeriod ["hello", "leah pause", "world", "leah resume", "today."] =
      ["hello", "", "", "", "today."] ∧
    sysEmissions [] ["hello", "leah pause", "world", "leah resume", "today."] =
      ["hello", "", "", "", " today."] := ⟨rfl, rfl⟩

/-- C2, counterexample: the dispatcher's state machine is not guarded —
from STOPPED, the utterance "leah resume" moves the dispatcher state to
LISTENING, so Stopped is not terminal. -/
theorem c2_stopped_not_terminal :
    (default_handle_speech [] ListeningState.stopped "" true "leah resume").ls =
      ListeningState.listening ∧
    ListeningState.listening ≠ ListeningState.stopped := ⟨rfl, by decide⟩

/-- C2, amended: the dispatcher's wake-word `pause`/`resume`/`stop` commands
assign the state unconditionally — `pause` always yields PAUSED, `resume`
always yields LISTENING and `stop` always yields STOPPED, from every prior
state (including STOPPED, so no guard `only if currently Listening` /
`only if currently Paused` and no terminality of STOPPED is implemented);
restricted to the states Listening and Paused the resulting transitions
coincide with the guarded machine, and each command emits the empty
string. -/
theorem c2_transitions_unguarded (w : String) (hw : w ∈ wakeWords)
    (cfg : List (String × String)) (s : ListeningState) (last : String) (hc : Bool) :
    (default_handle_speech cfg s last hc (w ++ " pause")).ls = ListeningState.paused ∧
    (default_handle_speech cfg s last hc (w ++ " resume")).ls = ListeningState.listening ∧
    (default_handle_speech cfg s last hc (w ++ " stop")).ls = ListeningState.stopped ∧
    (default_handle_speech cfg s last hc (w ++ " pause")).ret = "" ∧
    (default_handle_speech cfg s last hc (w ++ " resume")).ret = "" ∧
    (default_handle_speech cfg s last hc (w ++ " stop")).ret = "" := by
  fin_cases hw <;> exact ⟨rfl, rfl, rfl, rfl, rfl, rfl⟩

/-- Witness for C2 (amended), at the wake spelling "leia" from STOPPED. -/
theorem c2_transitions_unguarded_witness :
    "leia" ∈ wakeWords ∧
    (default_handle_speech [] ListeningState.stopped "x" true ("leia" ++ " pause")).ls =
      ListeningState.paused :=
  ⟨by decide, (c2_transitions_unguarded "leia" (by decide) [] ListeningState.stopped "x" true).1⟩

/-- C5: the two `ListeningState` copies are not mirrored.  On the utterance
"leah pause" from a fresh start the controller transitions its own copy to
PAUSED and then — being no longer LISTENING — never forwards the utterance,
so the dispatcher's copy stays LISTENING: after the operation the two copies
differ. -/
theorem c5_states_diverge :
    (controller_handle_speech cfgPeriod startState "leah pause").st.ctrl = CtrlState.paused ∧
    (controller_handle_speech cfgPeriod startState "leah pause").st.disp =
      ListeningState.listening := ⟨rfl, rfl⟩

/-- C6: with the phrase map `{"period": "."}`, "leah put a period" from a
fresh start emits exactly "." (the claim's round-trip instance), but
"leah put period" — where the claim says the wake word and "put" are
stripped and "period" is looked up — emits `""`, because the code only
strips tokens when an indefinite article is present and otherwise looks up
the entire lowered utterance "leah put period", which is not in the map. -/
theorem c6_put_article_dependence :
    sysEmissions cfgPeriod ["leah put a period"] = ["."] ∧
    sysEmissions cfgPeriod ["leah put period"] = [""] := ⟨rfl, rfl⟩

/-- C7, counterexample: after emitting "hello" (ends alphanumeric), the raw
utterance "hi," does not start with a comma, colon, semicolon, or a mapped
literal (the map is empty), yet its emission is "hi," — not prefixed with a
space — because the code inspects the *last* character of the new text
(the comma), not its first. -/
theorem c7_spacing_counterexample :
    sysEmissions [] ["hello", "hi,"] = ["hello", "hi,"] ∧
    ("hi," : String) ≠ " " ++ "hi," := ⟨rfl, by decide⟩

/-- C3: while the ListeningState is PAUSED or STOPPED the dictation handler
(the Text Handler) is never invoked, nothing is typed, and its `last_text`
is untouched — delegation down the handler chain happens only when the state
is LISTENING.  Stated both for a bare dispatcher step and for a full
controller step whose dispatcher state copy is not LISTENING. -/
theorem c3_no_dictation_unless_listening :
    (∀ (cfg : List (String × String)) (ls : ListeningState) (last : String) (hc : Bool)
       (text : String), ls ≠ ListeningState.listening →
       (default_handle_speech cfg ls last hc text).dictCalled = false ∧
       typedOf (default_handle_speech cfg ls last hc text).effects = none ∧
       (default_handle_speech cfg ls last hc text).last = last) ∧
    (∀ (cfg : List (String × String)) (st : SysState) (text : String),
       st.disp ≠ ListeningState.listening →
       (controller_handle_speech cfg st text).dictCalled = false ∧
       typedOf (controller_handle_speech cfg st text).effects = none) :=
  ⟨disp_no_dict, sys_no_dict⟩

/-- Witness for C3 at a concrete PAUSED state. -/
theorem c3_no_dictation_unless_listening_witness :
    ListeningState.paused ≠ ListeningState.listening ∧
    (default_handle_speech [] ListeningState.paused "" true "hello").dictCalled = false ∧
    (controller_handle_speech []
       ⟨CtrlState.listening, false, ListeningState.paused, ""⟩ "hello").dictCalled = false :=
  ⟨by decide,
   (c3_no_dictation_unless_listening.1 [] ListeningState.paused "" true "hello" (by decide)).1,
   (c3_no_dictation_unless_listening.2 []
      ⟨CtrlState.listening, false, ListeningState.paused, ""⟩ "hello" (by decide)).1⟩

/-- C4, counterexample: "okay leah stop" matches no wake-word command (its
first token is not a wake-word spelling), and the state is LISTENING, yet the
dispatcher does not delegate it to the chain: `handle_chain` performs its own
substring command recognition, finds "leah stop", transitions the state to
STOPPED, and returns the utterance without invoking the chained handler. -/
theorem c4_counterexample :
    ¬ wakeCmdMatched "okay leah stop" ∧
    (default_handle_speech [] ListeningState.listening "" true "okay leah stop").dictCalled =
      false ∧
    (default_handle_speech [] ListeningState.listening "" true "okay leah stop").ls =
      ListeningState.stopped ∧
    (default_handle_speech [] ListeningState.listening "" true "okay leah stop").ret =
      "okay leah stop" :=
  ⟨by decide, rfl, rfl, rfl⟩

/-- C4, amended: if no wake-word command matched AND none of
`handle_chain`'s own substring checks ("leah stop" / "leah pause" /
"leah resume" / "leah launch ") fires on the lowered utterance, then while
LISTENING the dispatcher delegates the entire original utterance (original
casing) to the first handler in the chain and returns that handler's result;
with an empty chain it returns the utterance unchanged. -/
theorem c4_delegation_amended (cfg : List (String × String)) (last text : String)
    (hnw : ¬ wakeCmdMatched text) (hns : ¬ chainSubstrMatched text) :
    default_handle_speech cfg ListeningState.listening last true text =
      ⟨(dictation_handle_speech cfg last text).ret, ListeningState.listening,
       (dictation_handle_speech cfg last text).last, true,
       (dictation_handle_speech cfg last text).effects⟩ ∧
    default_handle_speech cfg ListeningState.listening last false text =
      ⟨text, ListeningState.listening, last, false, []⟩ := by
  have hw : wakeCommandOf text = none := by
    unfold wakeCmdMatched at hnw
    exact not_not.mp hnw
  have hcc : chainCommandOf text = none := by
    unfold chainSubstrMatched at hns
    exact not_not.mp hns
  constructor
  · delta default_handle_speech
    rw [hw]
    delta handle_chain
    rw [hcc]
    exact if_pos ⟨rfl, rfl⟩
  · delta default_handle_speech
    rw [hw]
    delta handle_chain
    rw [hcc]
    exact if_neg (fun hx => Bool.noConfusion hx.2)

/-- Witness for C4 (amended) on "good morning". -/
theorem c4_delegation_amended_witness :
    ¬ wakeCmdMatched "good morning" ∧ ¬ chainSubstrMatched "good morning" ∧
    default_handle_speech [] ListeningState.listening "" true "good morning" =
      ⟨(dictation_handle_speech [] "" "good morning").ret, ListeningState.listening,
       (dictation_handle_speech [] "" "good morning").last, true,
       (dictation_handle_speech [] "" "good morning").effects⟩ :=
  ⟨by decide, by decide,
   (c4_delegation_amended [] "" "good morning" (by decide) (by decide)).1⟩

/-- C7, amended: the spacing rule tests the *final* character of the new
(processed) text, not the first character of the raw text: if `last_text`
ends in an alphanumeric character and the processed text, stripped, ends in
a character that is not a comma/colon/semicolon and not a mapped punctuation
literal (and the utterance is not an undo command), the emission is exactly
`" "` prepended to the processed text. -/
theorem c7_spacing_amended (cfg : List (String × String)) (last t : String) (lc tc : Char)
    (hrl : last.data.getLast? = some lc) (ha : lc.isAlphanum = true)
    (hu : isUndoCmd t = false)
    (htc : (pyStrip (putProcess cfg t)).data.getLast? = some tc)
    (h4 : ¬(tc = ',' ∨ tc = ':' ∨ tc = ';'))
    (h5 : (cfgValues cfg).contains (String.mk [tc]) = false) :
    dictation_handle_speech cfg last t =
      ⟨" " ++ putProcess cfg t, " " ++ putProcess cfg t,
       [Effect.typewrite (" " ++ putProcess cfg t)]⟩ := by
  delta dictation_handle_speech
  rw [if_neg (fun hx => by rw [hu] at hx; exact absurd hx (by decide)),
      dictContinuity_alnum (cfgValues cfg) last (putProcess cfg t) lc tc hrl ha htc h4 h5]

/-- Witness for C7 (amended): after "hello", the utterance "today" gets one
leading space. -/
theorem c7_spacing_amended_witness :
    ("hello" : String).data.getLast? = some 'o' ∧ Char.isAlphanum 'o' = true ∧
    dictation_handle_speech cfgPeriod "hello" "today" =
      ⟨" " ++ putProcess cfgPeriod "today", " " ++ putProcess cfgPeriod "today",
       [Effect.typewrite (" " ++ putProcess cfgPeriod "today")]⟩ :=
  ⟨by decide, by decide,
   c7_spacing_amended cfgPeriod "hello" "today" 'o' 'y' (by decide) (by decide) (by decide)
     (by decide) (by decide) (by decide)⟩

/-- C8: if `last_text` (stripped) ends in '.', '!' or '?', the next utterance
that reaches the dictation handler (and is not an undo command) is emitted as
`" "` plus the capitalized processed text — one leading space, first letter
upper-cased (conjunct 2 makes the character-level shape explicit); and any
full controller step that emits nothing (the only steps between such an
utterance and the next non-empty emission) leaves `last_text` unchanged, so
the rule indeed applies to the immediately following non-empty emission. -/
theorem c8_terminal_continuity :
    (∀ (cfg : List (String × String)) (last t : String) (lc : Char),
      last ≠ "" →
      (pyStrip last).data.getLast? = some lc →
      (lc = '.' ∨ lc = '!' ∨ lc = '?') →
      isUndoCmd t = false →
      dictation_handle_speech cfg last t =
        ⟨" " ++ pyCapitalize (putProcess cfg t), " " ++ pyCapitalize (putProcess cfg t),
         [Effect.typewrite (" " ++ pyCapitalize (putProcess cfg t))]⟩) ∧
    (∀ (p : String) (c : Char) (cs : List Char), p.data = c :: cs →
      (" " ++ pyCapitalize p).data = ' ' :: c.toUpper :: cs.map Char.toLower) ∧
    (∀ (cfg : List (String × String)) (st : SysState) (t : String) (lc : Char),
      st.last ≠ "" →
      (pyStrip st.last).data.getLast? = some lc →
      (lc = '.' ∨ lc = '!' ∨ lc = '?') →
      emissionOf (controller_handle_speech cfg st t).effects = "" →
      (controller_handle_speech cfg st t).st.last = st.last) := by
  refine ⟨?_, ?_, ?_⟩
  · intro cfg last t lc hne hs hterm hu
    delta dictation_handle_speech
    rw [if_neg (fun hx => by rw [hu] at hx; exact absurd hx (by decide)),
        dictContinuity_terminal (cfgValues cfg) last (putProcess cfg t) lc hne hs hterm]
  · intro p c cs hp
    unfold pyCapitalize
    rw [hp]
    rfl
  · intro cfg st t lc hne hs hterm he
    rcases sys_last_or_emit cfg st t lc hne hs hterm with hl | hr
    · exact hl
    · rw [hr] at he
      exact absurd he (space_append_ne_empty _)

/-- Witness for C8: after "hi.", the utterance "world" is emitted as
" World"; and a controller step that emits nothing (here: dispatcher paused)
keeps `last_text` = "hi.". -/
theorem c8_terminal_continuity_witness :
    ("hi." : String) ≠ "" ∧
    dictation_handle_speech [] "hi." "world" =
      ⟨" " ++ pyCapitalize (putProcess [] "world"), " " ++ pyCapitalize (putProcess [] "world"),
       [Effect.typewrite (" " ++ pyCapitalize (putProcess [] "world"))]⟩ ∧
    (controller_handle_speech []
       ⟨CtrlState.listening, false, ListeningState.paused, "hi."⟩ "world").st.last = "hi." :=
  ⟨by decide,
   c8_terminal_continuity.1 [] "hi." "world" '.' (by decide) (by decide) (by decide) (by decide),
   c8_terminal_continuity.2.2 []
     ⟨CtrlState.listening, false, ListeningState.paused, "hi."⟩ "world" '.'
     (by decide) (by decide) (by decide) (by decide)⟩

/-- C9: issuing "<wakeword> resume" while both state copies are already
LISTENING, or "<wakeword> pause" while both are already PAUSED, leaves the
entire system state unchanged and produces no collaborator call and no
emission; likewise `SpeechController.pause` when already PAUSED and
`SpeechController.resume` when already LISTENING are no-ops. -/
theorem c9_idempotent_noops (cfg : List (String × String)) (last : String) (w : String)
    (hw : w ∈ wakeWords) :
    controller_handle_speech cfg ⟨CtrlState.listening, false, ListeningState.listening, last⟩
        (w ++ " resume") =
      ⟨⟨CtrlState.listening, false, ListeningState.listening, last⟩, [], false⟩ ∧
    controller_handle_speech cfg ⟨CtrlState.paused, false, ListeningState.paused, last⟩
        (w ++ " pause") =
      ⟨⟨CtrlState.paused, false, ListeningState.paused, last⟩, [], false⟩ ∧
    ctrl_pause CtrlState.paused = (CtrlState.paused, []) ∧
    ctrl_resume CtrlState.listening = (CtrlState.listening, []) := by
  fin_cases hw <;> exact ⟨rfl, rfl, rfl, rfl⟩

/-- Witness for C9 at the spelling "leah". -/
theorem c9_idempotent_noops_witness :
    "leah" ∈ wakeWords ∧
    controller_handle_speech [] ⟨CtrlState.listening, false, ListeningState.listening, "x"⟩
        ("leah" ++ " resume") =
      ⟨⟨CtrlState.listening, false, ListeningState.listening, "x"⟩, [], false⟩ :=
  ⟨by decide, (c9_idempotent_noops [] "x" "leah" (by decide)).1⟩

/-- C10: while the dispatcher state is PAUSED or STOPPED, an utterance that
matches no wake-word command and none of `handle_chain`'s substring checks is
returned unchanged (not as the empty string), with no downstream handler
invoked, no collaborator call, and the state untouched. -/
theorem c10_paused_passthrough (cfg : List (String × String)) (ls : ListeningState)
    (last : String) (hc : Bool) (text : String)
    (hls : ls = ListeningState.paused ∨ ls = ListeningState.stopped)
    (hnw : ¬ wakeCmdMatched text) (hns : ¬ chainSubstrMatched text) :
    default_handle_speech cfg ls last hc text = ⟨text, ls, last, false, []⟩ := by
  have hw : wakeCommandOf text = none := by
    unfold wakeCmdMatched at hnw
    exact not_not.mp hnw
  have hcc : chainCommandOf text = none := by
    unfold chainSubstrMatched at hns
    exact not_not.mp hns
  delta default_handle_speech
  rw [hw]
  delta handle_chain
  rw [hcc]
  exact if_neg (fun hx => by
    rcases hls with h | h <;> (rw [h] at hx; exact ListeningState.noConfusion hx.1))

/-- Witness for C10 on "hello world" while PAUSED. -/
theorem c10_paused_passthrough_witness :
    ¬ wakeCmdMatched "hello world" ∧ ¬ chainSubstrMatched "hello world" ∧
    default_handle_speech [] ListeningState.paused "" true "hello world" =
      ⟨"hello world", ListeningState.paused, "", false, []⟩ :=
  ⟨by decide, by decide,
   c10_paused_passthrough [] ListeningState.paused "" true "hello world" (Or.inl rfl)
     (by decide) (by decide)⟩

end Leia
